import Mathlib

/-!
Verification development for the arbitrage scanner repository
(`arbitrage_bot.py`, `lut_runtime_v2.py`, `ankr_reserves.py`, `config.py`).

Python floats are modelled by exact rationals (`ℚ`), Python ints by `ℕ`/`ℤ`
with Python's floor semantics made explicit, hex strings by `String`, and
fallible code by `Option`/`Except`.  Every definition mirrors one function
(or one contiguous step of one function) of the source; the doc comment of
each definition names its origin.
-/

namespace ArbBot

/-! ### Sizing oracle: `lut_runtime_v2.py` -/

/-- Model of Python's `bisect.bisect_right(x_grid, x)`.  On a sorted list
(the spec requires the grids to be strictly increasing) `bisect_right`
returns the number of elements that are `≤ x`, which is how we define it. -/
def bisectRight (xs : List ℚ) (x : ℚ) : Nat :=
  xs.countP (fun a => decide (a ≤ x))

/-- `_interp1(x_grid, y_grid, x)` from `lut_runtime_v2.py` (lines 7-14):
1-D linear interpolation with end clamping.  List indexing `l[i]` is
modelled totally by `getD i 0` here; theorems about this total model carry
grid-validity hypotheses under which the defaults are never consulted.
The exception-aware variant `interp1E` below models Python's partial
indexing (`IndexError`) faithfully and agrees with this one on valid
grids. -/
def interp1 (x_grid y_grid : List ℚ) (x : ℚ) : ℚ :=
  if x ≤ x_grid.headD 0 then y_grid.headD 0
  else if x_grid.getLastD 0 ≤ x then y_grid.getLastD 0
  else
    let k := bisectRight x_grid x - 1
    let x0 := x_grid.getD k 0
    let x1 := x_grid.getD (k + 1) 0
    let y0 := y_grid.getD k 0
    let y1 := y_grid.getD (k + 1) 0
    let t := if x1 ≠ x0 then (x - x0) / (x1 - x0) else 0
    y0 + t * (y1 - y0)

/-- The `(i0, i1, ts)` computation of `_interp2` (`lut_runtime_v2.py`
lines 17-23): row indices and interpolation weight along the `s` axis,
with end clamping. -/
def interp2idx (s_grid : List ℚ) (s : ℚ) : Nat × Nat × ℚ :=
  if s ≤ s_grid.headD 0 then (0, 0, 0)
  else if s_grid.getLastD 0 ≤ s then (s_grid.length - 1, s_grid.length - 1, 0)
  else
    let i0 := bisectRight s_grid s - 1
    let i1 := i0 + 1
    let s0 := s_grid.getD i0 0
    let s1 := s_grid.getD i1 0
    let ts := if s1 ≠ s0 then (s - s0) / (s1 - s0) else 0
    (i0, i1, ts)

/-- `_interp2(s_grid, r_grid, G, s, r)` from `lut_runtime_v2.py`
(lines 16-27): bilinear interpolation — the two selected rows are
interpolated over the `r` axis by `_interp1` (lines 24-26) and blended
with the weight `ts` (line 27). -/
def interp2 (s_grid r_grid : List ℚ) (G : List (List ℚ)) (s r : ℚ) : ℚ :=
  let idx := interp2idx s_grid s
  let row0 := G.getD idx.1 []
  let row1 := G.getD idx.2.1 []
  let g0 := interp1 r_grid row0 r
  let g1 := interp1 r_grid row1 r
  g0 + idx.2.2 * (g1 - g0)

/-- The sizing grid document (`{"s_grid": ..., "r_grid": ..., "g": ...}`)
loaded by `load_lut`. -/
structure Lut where
  s_grid : List ℚ
  r_grid : List ℚ
  g : List (List ℚ)

/-! Exception-aware model of the same functions.  Python list indexing
`l[i]` supports negative indices (counted from the end) and raises
`IndexError` out of range; the `E`-suffixed variants below thread that
failure through `Except`, exactly along Python's evaluation order, and are
related to the total models above on valid grids. -/

/-- Python `l[i]`: negative indices wrap once from the end; anything still
out of range raises `IndexError`.  The extra default `d` feeds `getD` and
is only ever read when the in-range check has already succeeded, so it
never influences the result. -/
def pyGet {α : Type} (l : List α) (i : ℤ) (d : α) : Except String α :=
  let j := if i < 0 then i + l.length else i
  if 0 ≤ j ∧ j.toNat < l.length then .ok (l.getD j.toNat d)
  else .error "IndexError"

/-- `_interp1` with Python's partial indexing: the accesses `x_grid[0]`,
`x_grid[-1]`, `x_grid[k]`, `x_grid[k+1]`, `y_grid[k]`, `y_grid[k+1]`
(`lut_runtime_v2.py` lines 8-12) happen in this order and each may raise. -/
def interp1E (x_grid y_grid : List ℚ) (x : ℚ) : Except String ℚ :=
  (pyGet x_grid 0 0).bind fun x_head =>
    if x ≤ x_head then pyGet y_grid 0 0
    else
      (pyGet x_grid (-1) 0).bind fun x_last =>
        if x_last ≤ x then pyGet y_grid (-1) 0
        else
          (pyGet x_grid ((bisectRight x_grid x : ℤ) - 1) 0).bind fun x0 =>
            (pyGet x_grid ((bisectRight x_grid x : ℤ) - 1 + 1) 0).bind fun x1 =>
              (pyGet y_grid ((bisectRight x_grid x : ℤ) - 1) 0).bind fun y0 =>
                (pyGet y_grid ((bisectRight x_grid x : ℤ) - 1 + 1) 0).bind fun y1 =>
                  .ok (y0 + (if x1 ≠ x0 then (x - x0) / (x1 - x0) else 0) * (y1 - y0))

/-- `_interp2` with Python's partial indexing: `s_grid[0]` is read first
(line 17, raising on an empty grid), then possibly `s_grid[-1]` and the
interior pair, then the two rows `G[i0]`, `G[i1]` and their `_interp1`
calls, in Python's order. -/
def interp2E (s_grid r_grid : List ℚ) (G : List (List ℚ)) (s r : ℚ) : Except String ℚ :=
  (pyGet s_grid 0 0).bind fun s_head =>
    (if s ≤ s_head then .ok ((0 : ℤ), (0 : ℤ), (0 : ℚ))
     else
       (pyGet s_grid (-1) 0).bind fun s_last =>
         if s_last ≤ s then
           .ok (((s_grid.length : ℤ) - 1, (s_grid.length : ℤ) - 1, (0 : ℚ)))
         else
           (pyGet s_grid ((bisectRight s_grid s : ℤ) - 1) 0).bind fun s0 =>
             (pyGet s_grid ((bisectRight s_grid s : ℤ) - 1 + 1) 0).bind fun s1 =>
               .ok (((bisectRight s_grid s : ℤ) - 1,
                 (bisectRight s_grid s : ℤ) - 1 + 1,
                 if s1 ≠ s0 then (s - s0) / (s1 - s0) else 0))).bind fun idx =>
      (pyGet G idx.1 []).bind fun row0 =>
        (pyGet G idx.2.1 []).bind fun row1 =>
          (interp1E r_grid row0 r).bind fun g0 =>
            (interp1E r_grid row1 r).bind fun g1 =>
              .ok (g0 + idx.2.2 * (g1 - g0))

/-- `size_from_lut` with Python's partial indexing: the `L <= 0`
short-circuit returns 0 before any grid access; otherwise the guarded
ratio is formed and `_interp2` may raise. -/
def size_from_lutE (lut : Lut) (s b1 b2 : ℚ) : Except String ℚ :=
  if min b1 b2 ≤ 0 then .ok 0
  else
    (interp2E lut.s_grid lut.r_grid lut.g s
        (if 0 < b1 then b2 / b1 else 0)).bind fun g =>
      .ok (min b1 b2 * max 0 g)

/-- `size_from_lut(lut, s, b1, b2)` from `lut_runtime_v2.py` (lines 29-34):
`L = min(b1, b2)`; zero out non-positive scales; guard the ratio `b2 / b1`
by `b1 > 0`; return `L * max(0.0, g)`. -/
def size_from_lut (lut : Lut) (s b1 b2 : ℚ) : ℚ :=
  let L := min b1 b2
  if L ≤ 0 then 0
  else
    let r := if 0 < b1 then b2 / b1 else 0
    let g := interp2 lut.s_grid lut.r_grid lut.g s r
    L * max 0 g

/-- The spec's scenario-5 grid (`sGrid=[0.001, 0.01]`, `rGrid=[0.5, 1, 2]`,
`g=[[0,0,0],[0.1,0.2,0.1]]`), used as the concrete grid in witnesses. -/
def lutScen5 : Lut :=
  { s_grid := [1/1000, 1/100]
    r_grid := [1/2, 1, 2]
    g := [[0, 0, 0], [1/10, 1/5, 1/10]] }

/-! ### AMM model: `calculate_price_impact_amm` (`arbitrage_bot.py` 1269-1294) -/

/-- `calculate_price_impact_amm(amount_in, reserve_in, reserve_out,
fee_percent)`: returns `(amount_out, price_impact_percent)`, with the early
`(0, 0)` return for non-positive inputs; `fee_percent` is a percentage
(default 0.3 in the source). -/
def calculate_price_impact_amm (amount_in reserve_in reserve_out fee_percent : ℚ) : ℚ × ℚ :=
  if reserve_in ≤ 0 ∨ reserve_out ≤ 0 ∨ amount_in ≤ 0 then (0, 0)
  else
    let original_price := reserve_out / reserve_in
    let fee_multiplier := 1 - fee_percent / 100
    let amount_in_with_fee := amount_in * fee_multiplier
    let amount_out := amount_in_with_fee * reserve_out / (reserve_in + amount_in_with_fee)
    let actual_price := amount_out / amount_in
    let price_impact := (original_price - actual_price) / original_price * 100
    (amount_out, price_impact)

/-! ### Evaluator thresholds (`config.py`) -/

/-- `MIN_LIQUIDITY_USD = 500` (`config.py` line 58). -/
def MIN_LIQUIDITY_USD : ℚ := 500

/-- `MIN_SPREAD_PERCENT = 0.75` (`config.py` line 62). -/
def MIN_SPREAD_PERCENT : ℚ := 3 / 4

/-! ### Liquidity: `calculate_liquidity_usd` (`arbitrage_bot.py` 880-911) -/

/-- `calculate_liquidity_usd(reserve_base, base_token_address,
base_decimals)`: `2 * (reserve_base / 10**base_decimals) *
base_price_usd`.  The source resolves `base_price_usd` from the
`BASE_TOKEN_USD_PRICES` table (with a per-symbol fallback); we take the
resolved price as an argument. -/
def calculate_liquidity_usd (reserve_base : ℚ) (base_decimals : ℕ)
    (base_price_usd : ℚ) : ℚ :=
  2 * (reserve_base / 10 ^ base_decimals) * base_price_usd

/-! ### Evaluator steps in `process_v2_combos` (`arbitrage_bot.py` 1029-1267) -/

/-- Lines 1190-1199 of `process_v2_combos`: when `sell_price <= buy_price`
the combination is dropped outright (`continue`, comment "Нет арбитража");
no direction swap is attempted.  Otherwise the spread
`(sell_price - buy_price) / buy_price` is computed and the spread filter
applied. -/
def processV2DirectionStep (buy_price sell_price : ℚ) : Option ℚ :=
  if sell_price ≤ buy_price then none
  else
    let spread := (sell_price - buy_price) / buy_price
    if spread < MIN_SPREAD_PERCENT / 100 then none else some spread

/-- Lines 1204-1213 of `process_v2_combos`: liquidity is computed on BOTH
sides (`buy_base_decimal * base_price_usd * 2` and likewise for sell), and
the combination is dropped when the smaller of the two is below
`MIN_LIQUIDITY_USD`; on survival the smaller value is the candidate's
`liquidity_usd`. -/
def processV2LiquidityStep (buy_base_decimal sell_base_decimal base_price_usd : ℚ) :
    Option ℚ :=
  let buy_liquidity_usd := buy_base_decimal * base_price_usd * 2
  let sell_liquidity_usd := sell_base_decimal * base_price_usd * 2
  let min_liquidity := min buy_liquidity_usd sell_liquidity_usd
  if min_liquidity < MIN_LIQUIDITY_USD then none else some min_liquidity

/-- Python positional-call semantics for `size_from_lut`, which has four
required parameters `(lut, s, b1, b2)`: a call that supplies any other
number of numeric arguments raises `TypeError` instead of returning. -/
def pyCallSizeFromLut (lut : Lut) (args : List ℚ) : Except String ℚ :=
  match args with
  | [s, b1, b2] => .ok (size_from_lut lut s b1 b2)
  | _ => .error "TypeError"

/-- Lines 1219-1232 of `process_v2_combos`: the sizing step calls
`size_from_lut(self.lut, spread, r)` with only two numeric arguments.  The
raised `TypeError` propagates to the per-combination handler (line 1261,
`except Exception`), which `continue`s: the candidate is dropped and no
opportunity is emitted.  The `.ok` branch (which would go on to the
`L * g_optimal` computation of lines 1226-1232) is unreachable. -/
def processV2SizingStep (lut : Lut) (spread r : ℚ) : Option ℚ :=
  match pyCallSizeFromLut lut [spread, r] with
  | .ok g_optimal => some g_optimal
  | .error _ => none

/-! ### Evaluator steps in `find_optimal_trade_size`
(`arbitrage_bot.py` 1436-1975) and its caller
`find_arbitrage_opportunities` (2354-2429) -/

/-- Lines 1803-1814 of `find_optimal_trade_size` (direction fix): when
`sell_price_onchain <= buy_price_onchain` the two prices AND the two
reserve records are swapped and `flipped = True`; otherwise everything is
kept and `flipped = False`.  The reserve payload is abstract (`α`). -/
def findOptimalDirectionFix {α : Type} (buy_price_onchain sell_price_onchain : ℚ)
    (buy_reserves sell_reserves : α) : ℚ × ℚ × α × α × Bool :=
  if sell_price_onchain ≤ buy_price_onchain then
    (sell_price_onchain, buy_price_onchain, sell_reserves, buy_reserves, true)
  else
    (buy_price_onchain, sell_price_onchain, buy_reserves, sell_reserves, false)

/-- Line 1816: `spread_onchain = (sell - buy) / buy * 100` (percent). -/
def spreadOnchain (buy_price sell_price : ℚ) : ℚ :=
  (sell_price - buy_price) / buy_price * 100

/-- Lines 1820-1824: the on-chain spread filter drops the candidate when
`spread_onchain < MIN_SPREAD_PERCENT`. -/
def spreadFilterDrops (buy_price sell_price : ℚ) : Prop :=
  spreadOnchain buy_price sell_price < MIN_SPREAD_PERCENT

instance (bp sp : ℚ) : Decidable (spreadFilterDrops bp sp) := by
  unfold spreadFilterDrops; infer_instance

/-- Lines 1826-1845 of `find_optimal_trade_size` (liquidity filter): the
base reserve of the BUY pair only is converted by
`calculate_liquidity_usd`, and the candidate is dropped exactly when the
result is below `MIN_LIQUIDITY_USD`. -/
def findOptimalLiquidityStep (buy_base_reserve_raw : ℚ) (base_decimals : ℕ)
    (base_price_usd : ℚ) : Option ℚ :=
  let liquidity_usd := calculate_liquidity_usd buy_base_reserve_raw base_decimals base_price_usd
  if liquidity_usd < MIN_LIQUIDITY_USD then none else some liquidity_usd

/-- Lines 1932-1953 of `find_optimal_trade_size` plus the drop in its
caller (lines 2369-2382): reject non-positive reserves, reject reserves
below $500 worth of base token, then `optimal_size = size_from_lut(lut,
spread, b1, b2)` where `b1`, `b2` are the two pools' base-token reserves in
base-token units; the caller `continue`s (drops the candidate) when the
returned size is not positive. -/
def findOptimalSizingStep (lut : Lut) (spread b1 b2 base_price_usd : ℚ) : Option ℚ :=
  if b1 ≤ 0 ∨ b2 ≤ 0 then none
  else
    let min_reserve_units := 500 / base_price_usd
    if b1 < min_reserve_units ∨ b2 < min_reserve_units then none
    else
      let optimal_size := size_from_lut lut spread b1 b2
      if optimal_size ≤ 0 then none else some optimal_size

/-! ### Executor parameters: `prepare_universal_params`
(`arbitrage_bot.py` 2457-2766) -/

/-- Line 2548: `flash_loan_fee_amount = int(loan_amount *
get_flash_loan_fee() / 100)` with `get_flash_loan_fee() = 0.05` percent
(`config.py` `FLASH_LOAN_FEES["aave"]`), i.e. `⌊loan_amount / 2000⌋`. -/
def flash_loan_fee_amount (loan_amount : ℕ) : ℕ :=
  loan_amount * 5 / 10000

/-- Line 2680: `required_repay = loan_amount + flash_loan_fee_amount`. -/
def required_repay (loan_amount : ℕ) : ℕ :=
  loan_amount + flash_loan_fee_amount loan_amount

/-- Lines 2679-2693: from the expected output of the second swap (in wei)
and the repayment obligation, first the economic guard
(`expected_out_wei <= required_repay` aborts with `return None`), then
`min_amount_out = int(expected_out_wei * (1 - 0.005))` with the bump to
`required_repay + 1` applied only when `min_amount_out < required_repay`.
Python's float product is modelled by exact arithmetic,
`⌊expected_out_wei · 199 / 200⌋`. -/
def prepare_min_amount_out (expected_out_wei repay : ℕ) : Option ℕ :=
  if expected_out_wei ≤ repay then none
  else
    let min_amount_out := expected_out_wei * 199 / 200
    some (if min_amount_out < repay then repay + 1 else min_amount_out)

/-! ### Batched reserves fetcher: `ankr_reserves.py` -/

/-- Value of a hex digit, 0 for any other character (Python's `int(_, 16)`
raises there; the embedding is only applied to hex payloads). -/
def hexVal (c : Char) : ℕ :=
  if '0' ≤ c ∧ c ≤ '9' then c.toNat - '0'.toNat
  else if 'a' ≤ c ∧ c ≤ 'f' then c.toNat - 'a'.toNat + 10
  else if 'A' ≤ c ∧ c ≤ 'F' then c.toNat - 'A'.toNat + 10
  else 0

/-- `int(s, 16)` on a hex string without `0x` prefix. -/
def hexToNat (s : String) : ℕ :=
  s.data.foldl (fun acc c => 16 * acc + hexVal c) 0

/-- Python slicing `s[a:b]` on a character string. -/
def strSlice (s : String) (a b : ℕ) : String :=
  String.mk ((s.data.drop a).take (b - a))

/-- One decoded `getReserves()` record as built by `get_reserves_batch`
(`ankr_reserves.py` lines 62-67; the `token0`/`token1` slots are always
`None` there and are omitted). -/
structure ReservesRec where
  reserve0 : ℕ
  reserve1 : ℕ
deriving DecidableEq

/-- Lines 59-60 of `ankr_reserves.py`: `reserve0 = int(data[2:66], 16) if
len(data) >= 66 else 0` and `reserve1 = int(data[66:130], 16) if
len(data) >= 130 else 0`. -/
def decode_reserves (data : String) : ReservesRec :=
  { reserve0 := if 66 ≤ data.length then hexToNat (strSlice data 2 66) else 0
    reserve1 := if 130 ≤ data.length then hexToNat (strSlice data 66 130) else 0 }

/-- `get_reserves_batch(pairs)` (`ankr_reserves.py` 21-83), with the JSON
response of the single ANKR batch POST supplied as `results`: element `i`
is `some data` when `results[i]` carried a `"result"` field and `none`
otherwise.  For each `i < len(results)` with a result whose data is
non-empty and not `"0x"`, the decoded reserves are stored under the key
`pairs[i]`; nothing else is stored. -/
def get_reserves_batch (pairs : List String) (results : List (Option String)) :
    List (String × ReservesRec) :=
  (pairs.zip results).filterMap fun pr =>
    match pr.2 with
    | some data =>
        if data ≠ "" ∧ data ≠ "0x" then some (pr.1, decode_reserves data) else none
    | none => none

/-- `_process_batch_with_retry(batch, retry_count)` (`ankr_reserves.py`
157-214), restricted to executions in which `get_reserves_batch` returns
normally (the `TimeoutError`/rate-limit handlers retry the same batch and
do not affect the halving logic); the per-batch outcome is the oracle
`fetch`.  A non-empty result is returned as is; an empty result with
`len(batch) > MIN_BATCH_SIZE (= 2)` and `retry_count < MAX_RETRIES (= 3)`
splits the batch at `mid = len(batch) // 2` and combines the two halves
(issued in parallel via `asyncio.gather`) with `dict.update`; otherwise the
empty dict is returned. -/
def process_batch_with_retry (fetch : List String → List (String × ReservesRec))
    (batch : List String) (retry_count : ℕ) : List (String × ReservesRec) :=
  let result := fetch batch
  if result ≠ [] then result
  else if _h : 2 < batch.length ∧ retry_count < 3 then
    let mid := batch.length / 2
    process_batch_with_retry fetch (batch.take mid) (retry_count + 1) ++
      process_batch_with_retry fetch (batch.drop mid) (retry_count + 1)
  else []
termination_by 3 - retry_count
decreasing_by
  · omega
  · omega

/-! ### CREATE2 pair derivation: `compute_pair_address_create2`
(`arbitrage_bot.py` 653-680) -/

/-- `s[2:] if s.startswith('0x') else s`. -/
def strip0x (s : String) : String :=
  if s.startsWith "0x" then s.drop 2 else s

/-- `Web3.to_checksum_address`: EIP-55 checksumming lowercases the address
and re-capitalizes digits according to a keccak hash of the lowercase hex,
so its output is a function of the lowercase form alone.  The library
function is modelled as an arbitrary `checksum` applied to the lowercased
input. -/
def to_checksum_address (checksum : String → String) (a : String) : String :=
  checksum a.toLower

/-- `compute_pair_address_create2(factory, token0, token1,
init_code_hash)`: sort the tokens by lowercase form (line 659-660), ABI-
encode the checksummed sorted pair (line 669), `salt = keccak(encoded)`
(line 672), `data = 'ff' + factory + salt + init_code_hash` (line 675), and
checksum the low 20 bytes of `keccak(data)` (lines 678-680; `[12:]` on 32
bytes is `drop 24` on the hex).  `keccak` (hash of a byte string, returned
as hex) and the ABI encoding of two addresses are opaque library functions
and are taken as parameters. -/
def compute_pair_address_create2 (keccak checksum : String → String)
    (encodeTokens : String → String → String)
    (factory token0 token1 init_code_hash : String) : String :=
  let sorted : String × String :=
    if token1.toLower < token0.toLower then (token1, token0) else (token0, token1)
  let factory_clean := strip0x factory
  let init_code_clean := strip0x init_code_hash
  let encoded := encodeTokens (to_checksum_address checksum sorted.1)
    (to_checksum_address checksum sorted.2)
  let salt := keccak encoded
  let data := "ff" ++ factory_clean ++ salt ++ init_code_clean
  to_checksum_address checksum ("0x" ++ (keccak data).drop 24)

/-! ## Helper lemmas on lists -/

lemma headD_mem {α : Type} {l : List α} (h : l ≠ []) (d : α) : l.headD d ∈ l := by
  cases l with
  | nil => exact absurd rfl h
  | cons a t => exact List.mem_cons_self a t

lemma getLastD_eq_getD_last {α : Type} (l : List α) (d : α) :
    l.getLastD d = l.getD (l.length - 1) d := by
  rw [List.getLastD_eq_getLast?, List.getLast?_eq_getElem?, List.getD_eq_getElem?_getD]

lemma getD_map_of_lt {α β : Type} (f : α → β) {l : List α} {n : ℕ} (h : n < l.length)
    (d : α) (d' : β) : (l.map f).getD n d' = f (l.getD n d) := by
  rw [List.getD_eq_getElem?_getD, List.getD_eq_getElem?_getD, List.getElem?_map,
    List.getElem?_eq_getElem h, Option.map_some', Option.getD_some, Option.getD_some]

lemma getLastD_mem {α : Type} {l : List α} (h : l ≠ []) (d : α) : l.getLastD d ∈ l := by
  have hlt : l.length - 1 < l.length := by
    have : l.length ≠ 0 := fun h0 => h (List.length_eq_zero.mp h0)
    omega
  rw [getLastD_eq_getD_last, List.getD_eq_getElem?_getD, List.getElem?_eq_getElem hlt,
    Option.getD_some]
  exact List.getElem_mem hlt

lemma headD_map {α β : Type} (f : α → β) {l : List α} (h : l ≠ []) (d : α) (d' : β) :
    (l.map f).headD d' = f (l.headD d) := by
  cases l with
  | nil => exact absurd rfl h
  | cons a t => rfl

lemma getLastD_map {α β : Type} (f : α → β) {l : List α} (h : l ≠ []) (d : α) (d' : β) :
    (l.map f).getLastD d' = f (l.getLastD d) := by
  have hlt : l.length - 1 < l.length := by
    have : l.length ≠ 0 := fun h0 => h (List.length_eq_zero.mp h0)
    omega
  rw [getLastD_eq_getD_last, getLastD_eq_getD_last, List.length_map,
    getD_map_of_lt f hlt d d']

lemma bisectRight_pos {xs : List ℚ} {x : ℚ} (hne : xs ≠ []) (h : xs.headD 0 ≤ x) :
    1 ≤ bisectRight xs x := by
  have : 0 < bisectRight xs x := by
    rw [bisectRight, List.countP_pos_iff]
    exact ⟨xs.headD 0, headD_mem hne 0, by simpa using h⟩
  omega

lemma bisectRight_lt {xs : List ℚ} {x : ℚ} (hne : xs ≠ []) (h : x < xs.getLastD 0) :
    bisectRight xs x < xs.length := by
  rcases lt_or_eq_of_le (List.countP_le_length (l := xs) (p := fun a => decide (a ≤ x))) with
    hlt | heq
  · exact hlt
  · exfalso
    have hall := List.countP_eq_length.mp heq
    have := hall (xs.getLastD 0) (getLastD_mem hne 0)
    simp only [decide_eq_true_eq] at this
    exact absurd h (not_lt.mpr this)

/-! ## Claim C1 — the sizing step of the evaluator -/

/-- C1 (code-bug evidence): in `process_v2_combos` the sizing step calls
`size_from_lut(self.lut, spread, r)` with two numeric arguments though the
function requires three (`s`, `b1`, `b2`), so every call raises
`TypeError`; the per-combination exception handler swallows it and the
candidate is dropped — on this path the optimal size is never computed by
the oracle at all.  The parallel path `find_optimal_trade_size` (line
1953) performs `size_from_lut(lut, spread, b1, b2)` exactly as the claim
describes. -/
theorem processV2SizingStep_raises (lut : Lut) (spread r : ℚ) :
    pyCallSizeFromLut lut [spread, r] = Except.error "TypeError" ∧
    processV2SizingStep lut spread r = none :=
  ⟨rfl, rfl⟩

/-! ## Claim C2 — the direction-fix step -/

/-- C2 counterexample: a candidate whose on-chain sell price (1) is not
above its buy price (2) is dropped outright by `process_v2_combos`; the
venues are never swapped and nothing flipped is emitted, although after
the swap the claim describes the sell price (2) would exceed the buy
price (1), so per the claim the candidate had to be kept with
`flipped = true`. -/
theorem processV2DirectionStep_cex :
    processV2DirectionStep 2 1 = none ∧ (1 : ℚ) < 2 := by
  constructor
  · norm_num [processV2DirectionStep]
  · norm_num

/-- C2 amended: in `find_optimal_trade_size`, when the on-chain sell price
is ≤ the buy price the two venues' prices and reserve records are swapped
and `flipped = true` is reported with the result (the emitted
`ArbitrageOpportunity` record itself carries no `flipped` field); after
the fix the buy price never exceeds the sell price, so the direction-fix
step drops nothing — an exactly-equal pair survives the swap with spread 0
and is removed by the subsequent on-chain spread filter.  In the
`process_v2_combos` path a candidate with sell ≤ buy is instead dropped
immediately without a swap. -/
theorem findOptimalDirectionFix_spec {α : Type} (bp sp : ℚ) (br sr : α) :
    findOptimalDirectionFix bp sp br sr =
      (if sp ≤ bp then (sp, bp, sr, br, true) else (bp, sp, br, sr, false)) ∧
    (findOptimalDirectionFix bp sp br sr).1 ≤ (findOptimalDirectionFix bp sp br sr).2.1 ∧
    (sp = bp →
      spreadFilterDrops (findOptimalDirectionFix bp sp br sr).1
        (findOptimalDirectionFix bp sp br sr).2.1) ∧
    (sp ≤ bp → processV2DirectionStep bp sp = none) := by
  refine ⟨rfl, ?_, ?_, ?_⟩
  · unfold findOptimalDirectionFix
    split_ifs with h
    · exact h
    · exact le_of_lt (not_le.mp h)
  · intro he
    subst he
    simp only [findOptimalDirectionFix, if_pos le_rfl]
    unfold spreadFilterDrops spreadOnchain MIN_SPREAD_PERCENT
    norm_num
  · intro hle
    unfold processV2DirectionStep
    rw [if_pos hle]

/-- C2 witness: at buy = sell = 2 the direction fix leaves an equal pair
that the spread filter then drops, and the `process_v2_combos` path drops
the candidate directly. -/
theorem findOptimalDirectionFix_spec_witness :
    spreadFilterDrops ((findOptimalDirectionFix (2:ℚ) 2 (5:ℚ) 7).1)
        ((findOptimalDirectionFix (2:ℚ) 2 (5:ℚ) 7).2.1) ∧
      processV2DirectionStep (2:ℚ) 2 = none :=
  ⟨(findOptimalDirectionFix_spec 2 2 (5:ℚ) 7).2.2.1 rfl,
    (findOptimalDirectionFix_spec 2 2 (5:ℚ) 7).2.2.2 le_rfl⟩

/-! ## Claim C4 — the liquidity filter -/

/-- C4 counterexample: with buy-side base reserve 1000, sell-side base
reserve 100 (both already in base-token units) and a $1 base price, the
buy-side liquidity is $2000, not below `MIN_LIQUIDITY_USD = 500`, yet
`process_v2_combos` drops the candidate because the smaller side ($200) is
below the threshold — the drop is NOT "exactly when the buy-side
liquidityUsd is below minLiquidityUsd". -/
theorem processV2LiquidityStep_cex :
    processV2LiquidityStep 1000 100 1 = none ∧
    ¬ ((1000 : ℚ) * 1 * 2 < MIN_LIQUIDITY_USD) := by
  constructor
  · rw [processV2LiquidityStep]
    norm_num [MIN_LIQUIDITY_USD, min_def]
  · norm_num [MIN_LIQUIDITY_USD]

/-- C4 amended: liquidityUsd is `2·(Rbase/10^dBase)·priceBaseUsd`
(`calculate_liquidity_usd`).  `find_optimal_trade_size` computes it on the
buy side only and drops the candidate exactly when it is below
`MIN_LIQUIDITY_USD`; `process_v2_combos` computes it for both sides and
drops exactly when the smaller of the two is below `MIN_LIQUIDITY_USD`. -/
theorem liquidityFilter_spec (raw : ℚ) (d : ℕ) (price buyDec sellDec : ℚ) :
    calculate_liquidity_usd raw d price = 2 * (raw / 10 ^ d) * price ∧
    (findOptimalLiquidityStep raw d price = none ↔
      calculate_liquidity_usd raw d price < MIN_LIQUIDITY_USD) ∧
    (processV2LiquidityStep buyDec sellDec price = none ↔
      min (buyDec * price * 2) (sellDec * price * 2) < MIN_LIQUIDITY_USD) := by
  refine ⟨rfl, ?_, ?_⟩
  · simp only [findOptimalLiquidityStep]
    split_ifs with h
    · exact iff_of_true rfl h
    · exact iff_of_false (by simp) h
  · simp only [processV2LiquidityStep]
    split_ifs with h
    · exact iff_of_true rfl h
    · exact iff_of_false (by simp) h

/-! ## Claim C6 — `minFinalOutput` of the executor parameters -/

/-- C6 counterexample: with loan 199 the repayment is 199
(`⌊199·0.05/100⌋ = 0`), and with expected output 200 the economic guard
passes, but `int(200·0.995) = 199` equals the repayment, so the prepared
`minFinalOutput` is exactly the repayment 199 — while the claimed formula
`max(expectedBaseOut·(1−slippage), L·(1+φflash)+1)` gives 200, and
"strictly greater than the repayment" fails. -/
theorem prepare_min_amount_out_cex :
    required_repay 199 = 199 ∧
    prepare_min_amount_out 200 (required_repay 199) = some 199 ∧
    max (200 * 199 / 200) (required_repay 199 + 1) = 200 := by
  refine ⟨by decide, by decide, by decide⟩

/-- C6 amended: for every prepared transaction (the guard requires the
expected output `e` to strictly exceed the repayment
`R = L + ⌊L·φflash⌋`), `minFinalOutput` is `⌊e·(1−slippage)⌋` when that is
at least `R`, and `R + 1` otherwise; hence it is always ≥ R, and it equals
`max(⌊e·(1−slippage)⌋, R+1)` in every case except the boundary
`⌊e·(1−slippage)⌋ = R`, where it equals `R` exactly. -/
theorem prepare_min_amount_out_spec (e L : ℕ) (hguard : required_repay L < e) :
    ∃ v, prepare_min_amount_out e (required_repay L) = some v ∧
      required_repay L ≤ v ∧
      (e * 199 / 200 ≠ required_repay L →
        v = max (e * 199 / 200) (required_repay L + 1)) := by
  unfold prepare_min_amount_out
  rw [if_neg (not_le.mpr hguard)]
  simp only
  refine ⟨_, rfl, ?_, ?_⟩
  · split_ifs with hm
    · omega
    · omega
  · intro hne
    split_ifs with hm
    · rw [max_eq_right (by omega : e * 199 / 200 ≤ required_repay L + 1)]
    · rw [max_eq_left (by omega : required_repay L + 1 ≤ e * 199 / 200)]

/-- C6 witness: loan 100 (repayment 100), expected output 200; the
prepared value is `⌊200·0.995⌋ = 199 = max(199, 101)`. -/
theorem prepare_min_amount_out_spec_witness :
    required_repay 100 < 200 ∧
    (∃ v, prepare_min_amount_out 200 (required_repay 100) = some v ∧
      required_repay 100 ≤ v ∧
      (200 * 199 / 200 ≠ required_repay 100 →
        v = max (200 * 199 / 200) (required_repay 100 + 1))) :=
  ⟨by decide, prepare_min_amount_out_spec 200 100 (by decide)⟩

/-! ## Claim C3 — the batched reserves fetcher -/

/-- The `getReserves()` return data of a drained pool: the three 32-byte
words (`reserve0`, `reserve1`, `blockTimestampLast`) all zero. -/
def zeroReservesData : String :=
  "0x" ++ String.mk (List.replicate 192 '0')

/-- A `getReserves()` return with `reserve0 = 5`, `reserve1 = 7`,
timestamp 0. -/
def sampleReservesData : String :=
  "0x" ++ String.mk (List.replicate 63 '0' ++ ['5'] ++ List.replicate 63 '0' ++ ['7'] ++
    List.replicate 64 '0')

set_option maxRecDepth 8000 in
/-- C3 counterexample: a well-formed `eth_call` reply whose two reserve
words are zero (a drained pool) is decoded and stored by
`get_reserves_batch` — the returned map contains an entry with
`reserve0 = 0` and `reserve1 = 0`, so `reserve0 > 0 ∧ reserve1 > 0` does
not hold for every entry. -/
theorem get_reserves_batch_cex :
    get_reserves_batch ["p1"] [some zeroReservesData] =
      [("p1", { reserve0 := 0, reserve1 := 0 })] := by
  decide

/-- C3 amended: every entry of the map returned by `get_reserves_batch` is
keyed by exactly the input pair address for which the corresponding
`eth_call` was issued, and its value is the decode of that call's return
data, which was non-empty and not `"0x"`; no positivity check is applied
to the decoded reserves. -/
theorem get_reserves_batch_keys (pairs : List String) (results : List (Option String))
    (k : String) (v : ReservesRec)
    (hkv : (k, v) ∈ get_reserves_batch pairs results) :
    ∃ data, (k, some data) ∈ pairs.zip results ∧ data ≠ "" ∧ data ≠ "0x" ∧
      v = decode_reserves data := by
  rw [get_reserves_batch, List.mem_filterMap] at hkv
  obtain ⟨⟨k', res⟩, hmem, hout⟩ := hkv
  cases res with
  | none => exact Option.noConfusion hout
  | some data =>
    change (if data ≠ "" ∧ data ≠ "0x" then some (k', decode_reserves data)
      else none) = some (k, v) at hout
    split_ifs at hout with hd
    have h2 := Option.some.inj hout
    have hk : k' = k := congrArg Prod.fst h2
    have hv : decode_reserves data = v := congrArg Prod.snd h2
    exact ⟨data, hk ▸ hmem, hd.1, hd.2, hv.symm⟩

set_option maxRecDepth 8000 in
/-- C3 witness: a singleton batch with a well-formed reply; the amended
theorem applied to its unique entry. -/
theorem get_reserves_batch_keys_witness :
    (("p1", decode_reserves sampleReservesData) ∈
      get_reserves_batch ["p1"] [some sampleReservesData]) ∧
    ∃ data, ("p1", some data) ∈ (["p1"].zip [some sampleReservesData]) ∧
      data ≠ "" ∧ data ≠ "0x" ∧ decode_reserves sampleReservesData = decode_reserves data :=
  ⟨by decide,
    get_reserves_batch_keys ["p1"] [some sampleReservesData] "p1"
      (decode_reserves sampleReservesData) (by decide)⟩

/-! ## Claim C7 — halving-on-failure of the batch fetcher -/

/-- C7: one step of `_process_batch_with_retry`.  A batch with usable
results returns them; a failing batch with more than 2 items at recursion
depth `r < 3` is split at the midpoint and the two halves are processed as
independent batches whose results are combined; otherwise the empty map is
returned.  In particular at depth 3 no further split happens regardless of
size, and a failing batch of exactly two pairs yields the empty map — both
pairs absent from the output. -/
theorem process_batch_with_retry_spec
    (fetch : List String → List (String × ReservesRec)) (batch : List String)
    (r : ℕ) (p q : String) :
    process_batch_with_retry fetch batch r =
      (if fetch batch ≠ [] then fetch batch
       else if 2 < batch.length ∧ r < 3 then
         process_batch_with_retry fetch (batch.take (batch.length / 2)) (r + 1) ++
           process_batch_with_retry fetch (batch.drop (batch.length / 2)) (r + 1)
       else []) ∧
    process_batch_with_retry fetch batch 3 =
      (if fetch batch ≠ [] then fetch batch else []) ∧
    process_batch_with_retry fetch [p, q] r =
      (if fetch [p, q] ≠ [] then fetch [p, q] else []) := by
  refine ⟨?_, ?_, ?_⟩
  · rw [process_batch_with_retry]
    simp only [dite_eq_ite]
  · rw [process_batch_with_retry]
    simp only [dite_eq_ite]
    have h3 : ¬(2 < batch.length ∧ (3 : ℕ) < 3) := by omega
    rw [if_neg h3]
  · rw [process_batch_with_retry]
    simp only [dite_eq_ite]
    have hl : ([p, q] : List String).length = 2 := rfl
    have h2 : ¬(2 < ([p, q] : List String).length ∧ r < 3) := by
      rw [hl]; omega
    rw [if_neg h2]

/-! ## Claim C8 — constant-product output and price impact -/

/-- C8: for positive input and reserves, `calculate_price_impact_amm`
called with fee percentage `100·φ` (fee fraction `φ`) returns
`out = x·(1−φ)·Rout / (Rin + x·(1−φ))` and
`impact% = 100·(Rout/Rin − out/x) / (Rout/Rin)`. -/
theorem calculate_price_impact_amm_spec (x Rin Rout φ : ℚ)
    (hx : 0 < x) (hin : 0 < Rin) (hout : 0 < Rout) :
    (calculate_price_impact_amm x Rin Rout (100 * φ)).1 =
      x * (1 - φ) * Rout / (Rin + x * (1 - φ)) ∧
    (calculate_price_impact_amm x Rin Rout (100 * φ)).2 =
      100 * (Rout / Rin - x * (1 - φ) * Rout / (Rin + x * (1 - φ)) / x) / (Rout / Rin) := by
  have hcond : ¬(Rin ≤ 0 ∨ Rout ≤ 0 ∨ x ≤ 0) := by push_neg; exact ⟨hin, hout, hx⟩
  simp only [calculate_price_impact_amm, if_neg hcond]
  have e : (1 : ℚ) - 100 * φ / 100 = 1 - φ := by ring
  rw [e]
  exact ⟨rfl, by ring⟩

/-- C8 witness: `x = 1`, `Rin = 10`, `Rout = 20`, `φ = 3/1000`. -/
theorem calculate_price_impact_amm_spec_witness :
    (0 : ℚ) < 1 ∧ (0 : ℚ) < 10 ∧ (0 : ℚ) < 20 ∧
    ((calculate_price_impact_amm 1 10 20 (100 * (3 / 1000))).1 =
        1 * (1 - 3 / 1000) * 20 / (10 + 1 * (1 - 3 / 1000)) ∧
      (calculate_price_impact_amm 1 10 20 (100 * (3 / 1000))).2 =
        100 * (20 / 10 - 1 * (1 - 3 / 1000) * 20 / (10 + 1 * (1 - 3 / 1000)) / 1) /
          (20 / 10)) :=
  ⟨by norm_num, by norm_num, by norm_num,
    calculate_price_impact_amm_spec 1 10 20 (3 / 1000) (by norm_num) (by norm_num)
      (by norm_num)⟩

/-! ## Claim C10 — symmetry of the CREATE2 derivation -/

/-- C10: `compute_pair_address_create2` is symmetric in its two token
arguments for every factory, init-code hash, hash function, checksum
function and ABI encoding: the tokens are sorted by lowercase form before
encoding, and checksumming normalizes case, so swapping the arguments
yields the same address. -/
theorem compute_pair_address_create2_symm (keccak checksum : String → String)
    (encodeTokens : String → String → String) (factory a b init_code_hash : String) :
    compute_pair_address_create2 keccak checksum encodeTokens factory a b init_code_hash =
      compute_pair_address_create2 keccak checksum encodeTokens factory b a
        init_code_hash := by
  simp only [compute_pair_address_create2, to_checksum_address]
  split_ifs with h1 h2 h2
  · exact absurd h2 (asymm h1)
  · rfl
  · rfl
  · have heq : a.toLower = b.toLower := le_antisymm (not_lt.mp h1) (not_lt.mp h2)
    rw [heq]

/-! ## Claim C5 — bilinear interpolation with end clamping

Branch lemmas for `interp1` and `interp2idx`, and the structural lemma
that `_interp2` is `_interp1` along `s` applied to the per-row
`_interp1` along `r`. -/

lemma interp1_low (x_grid y_grid : List ℚ) (x : ℚ) (h : x ≤ x_grid.headD 0) :
    interp1 x_grid y_grid x = y_grid.headD 0 := by
  rw [interp1, if_pos h]

lemma interp1_high (x_grid y_grid : List ℚ) (x : ℚ) (h1 : ¬ x ≤ x_grid.headD 0)
    (h2 : x_grid.getLastD 0 ≤ x) :
    interp1 x_grid y_grid x = y_grid.getLastD 0 := by
  rw [interp1, if_neg h1, if_pos h2]

lemma interp1_mid (x_grid y_grid : List ℚ) (x : ℚ) (h1 : ¬ x ≤ x_grid.headD 0)
    (h2 : ¬ x_grid.getLastD 0 ≤ x) :
    interp1 x_grid y_grid x =
      y_grid.getD (bisectRight x_grid x - 1) 0 +
        (if x_grid.getD (bisectRight x_grid x - 1 + 1) 0 ≠
            x_grid.getD (bisectRight x_grid x - 1) 0 then
          (x - x_grid.getD (bisectRight x_grid x - 1) 0) /
            (x_grid.getD (bisectRight x_grid x - 1 + 1) 0 -
              x_grid.getD (bisectRight x_grid x - 1) 0)
         else 0) *
        (y_grid.getD (bisectRight x_grid x - 1 + 1) 0 -
          y_grid.getD (bisectRight x_grid x - 1) 0) := by
  rw [interp1, if_neg h1, if_neg h2]

lemma interp2idx_low (s_grid : List ℚ) (s : ℚ) (h : s ≤ s_grid.headD 0) :
    interp2idx s_grid s = (0, 0, 0) := by
  rw [interp2idx, if_pos h]

lemma interp2idx_high (s_grid : List ℚ) (s : ℚ) (h1 : ¬ s ≤ s_grid.headD 0)
    (h2 : s_grid.getLastD 0 ≤ s) :
    interp2idx s_grid s = (s_grid.length - 1, s_grid.length - 1, 0) := by
  rw [interp2idx, if_neg h1, if_pos h2]

lemma interp2idx_mid (s_grid : List ℚ) (s : ℚ) (h1 : ¬ s ≤ s_grid.headD 0)
    (h2 : ¬ s_grid.getLastD 0 ≤ s) :
    interp2idx s_grid s =
      (bisectRight s_grid s - 1, bisectRight s_grid s - 1 + 1,
        if s_grid.getD (bisectRight s_grid s - 1 + 1) 0 ≠
            s_grid.getD (bisectRight s_grid s - 1) 0 then
          (s - s_grid.getD (bisectRight s_grid s - 1) 0) /
            (s_grid.getD (bisectRight s_grid s - 1 + 1) 0 -
              s_grid.getD (bisectRight s_grid s - 1) 0)
        else 0) := by
  rw [interp2idx, if_neg h1, if_neg h2]

lemma interp2_unfold (s_grid r_grid : List ℚ) (G : List (List ℚ)) (s r : ℚ) :
    interp2 s_grid r_grid G s r =
      interp1 r_grid (G.getD (interp2idx s_grid s).1 []) r +
        (interp2idx s_grid s).2.2 *
          (interp1 r_grid (G.getD (interp2idx s_grid s).2.1 []) r -
            interp1 r_grid (G.getD (interp2idx s_grid s).1 []) r) :=
  rfl

lemma getD_zero_eq_headD {α : Type} {l : List α} (h : l ≠ []) (d : α) :
    l.getD 0 d = l.headD d := by
  cases l with
  | nil => exact absurd rfl h
  | cons a t => rfl

lemma interp2_low (s_grid r_grid : List ℚ) (G : List (List ℚ)) (s r : ℚ)
    (hGne : G ≠ []) (h : s ≤ s_grid.headD 0) :
    interp2 s_grid r_grid G s r = interp1 r_grid (G.headD []) r := by
  rw [interp2_unfold, interp2idx_low _ _ h]
  simp only [zero_mul, add_zero]
  rw [getD_zero_eq_headD hGne]

lemma interp2_high (s_grid r_grid : List ℚ) (G : List (List ℚ)) (s r : ℚ)
    (hlen : G.length = s_grid.length)
    (h1 : ¬ s ≤ s_grid.headD 0) (h2 : s_grid.getLastD 0 ≤ s) :
    interp2 s_grid r_grid G s r = interp1 r_grid (G.getLastD []) r := by
  rw [interp2_unfold, interp2idx_high _ _ h1 h2]
  simp only [zero_mul, add_zero]
  rw [← hlen, ← getLastD_eq_getD_last]

lemma interp2_eq_map (s_grid r_grid : List ℚ) (G : List (List ℚ)) (s r : ℚ)
    (hlen : G.length = s_grid.length) (hne : s_grid ≠ []) :
    interp2 s_grid r_grid G s r =
      interp1 s_grid (G.map fun row => interp1 r_grid row r) s := by
  have hGne : G ≠ [] := by
    intro h0
    apply hne
    apply List.length_eq_zero.mp
    rw [← hlen, h0, List.length_nil]
  by_cases h1 : s ≤ s_grid.headD 0
  · rw [interp1_low _ _ _ h1, headD_map _ hGne [], interp2_low _ _ _ _ _ hGne h1]
  · by_cases h2 : s_grid.getLastD 0 ≤ s
    · rw [interp1_high _ _ _ h1 h2, getLastD_map _ hGne [],
        interp2_high _ _ _ _ _ hlen h1 h2]
    · have hb1 : 1 ≤ bisectRight s_grid s :=
        bisectRight_pos hne (le_of_lt (not_le.mp h1))
      have hb2 : bisectRight s_grid s < s_grid.length :=
        bisectRight_lt hne (not_le.mp h2)
      have hGk : bisectRight s_grid s - 1 < G.length := by omega
      have hGk1 : bisectRight s_grid s - 1 + 1 < G.length := by omega
      rw [interp2_unfold, interp2idx_mid _ _ h1 h2, interp1_mid _ _ _ h1 h2]
      have e1 := getD_map_of_lt (fun row => interp1 r_grid row r) hGk ([]) (0 : ℚ)
      have e2 := getD_map_of_lt (fun row => interp1 r_grid row r) hGk1 ([]) (0 : ℚ)
      simp only [e1, e2]

/-- C5: for every valid grid (`len(g) = len(sGrid)`, non-empty and
strictly increasing grids — the spec's grid invariants, under which
`bisectRight` coincides with Python's `bisect.bisect_right`) and all
inputs, (i) with a positive scale `size_from_lut` returns
`L·max(0, g)` with `L = min(b1, b2)` and `g` the bilinear interpolation at
`(s, b2/b1)`; (ii) `_interp2` is exactly the 1-D clamped interpolation
along `s` of the per-row 1-D clamped interpolations along `r` (bilinear
with end clamping on both axes); (iii)-(iv) an `s` at or below `sGrid[0]`
(resp. at or above the last entry) selects the boundary row, still
interpolated over `r`; (v)-(vi) the same clamping holds on the `r`
axis. -/
theorem size_from_lut_bilinear (lut : Lut) (s r b1 b2 : ℚ)
    (hlen : lut.g.length = lut.s_grid.length) (hne : lut.s_grid ≠ [])
    (_hsorted : lut.s_grid.Chain' (· < ·)) (_hrsorted : lut.r_grid.Chain' (· < ·))
    (hL : 0 < min b1 b2) :
    size_from_lut lut s b1 b2 =
      min b1 b2 * max 0 (interp2 lut.s_grid lut.r_grid lut.g s (b2 / b1)) ∧
    interp2 lut.s_grid lut.r_grid lut.g s r =
      interp1 lut.s_grid (lut.g.map fun row => interp1 lut.r_grid row r) s ∧
    (∀ s' : ℚ, s' ≤ lut.s_grid.headD 0 →
      interp2 lut.s_grid lut.r_grid lut.g s' r = interp1 lut.r_grid (lut.g.headD []) r) ∧
    (∀ s' : ℚ, ¬ s' ≤ lut.s_grid.headD 0 → lut.s_grid.getLastD 0 ≤ s' →
      interp2 lut.s_grid lut.r_grid lut.g s' r =
        interp1 lut.r_grid (lut.g.getLastD []) r) ∧
    (∀ (row : List ℚ) (r' : ℚ), r' ≤ lut.r_grid.headD 0 →
      interp1 lut.r_grid row r' = row.headD 0) ∧
    (∀ (row : List ℚ) (r' : ℚ), ¬ r' ≤ lut.r_grid.headD 0 → lut.r_grid.getLastD 0 ≤ r' →
      interp1 lut.r_grid row r' = row.getLastD 0) := by
  have hGne : lut.g ≠ [] := by
    intro h0
    apply hne
    apply List.length_eq_zero.mp
    rw [← hlen, h0, List.length_nil]
  have hb1 : 0 < b1 := (lt_min_iff.mp hL).1
  refine ⟨?_, interp2_eq_map _ _ _ _ _ hlen hne, ?_, ?_, ?_, ?_⟩
  · simp only [size_from_lut, if_neg (not_le.mpr hL), if_pos hb1]
  · intro s' h
    exact interp2_low _ _ _ _ _ hGne h
  · intro s' h1 h2
    exact interp2_high _ _ _ _ _ hlen h1 h2
  · intro row r' h
    exact interp1_low _ _ _ h
  · intro row r' h1 h2
    exact interp1_high _ _ _ h1 h2

/-- C5 witness: the scenario-5 grid, `s = 1/200`, `r = 1`,
`b1 = b2 = 7`, with the boundary conjuncts instantiated at clamped inputs
(`s' = 0` below the grid, `s' = 1` above it, `r' = 0` and `r' = 5` on the
`r` axis). -/
theorem size_from_lut_bilinear_witness :
    (lutScen5.g.length = lutScen5.s_grid.length ∧ lutScen5.s_grid ≠ [] ∧
      lutScen5.s_grid.Chain' (· < ·) ∧ lutScen5.r_grid.Chain' (· < ·) ∧
      (0 : ℚ) < min 7 7) ∧
    size_from_lut lutScen5 (1/200) 7 7 =
      min 7 7 * max 0 (interp2 lutScen5.s_grid lutScen5.r_grid lutScen5.g (1/200) (7/7)) ∧
    interp2 lutScen5.s_grid lutScen5.r_grid lutScen5.g (1/200) 1 =
      interp1 lutScen5.s_grid (lutScen5.g.map fun row => interp1 lutScen5.r_grid row 1)
        (1/200) ∧
    interp2 lutScen5.s_grid lutScen5.r_grid lutScen5.g 0 1 =
      interp1 lutScen5.r_grid (lutScen5.g.headD []) 1 ∧
    interp2 lutScen5.s_grid lutScen5.r_grid lutScen5.g 1 1 =
      interp1 lutScen5.r_grid (lutScen5.g.getLastD []) 1 ∧
    interp1 lutScen5.r_grid [3, 4, 5] 0 = ([3, 4, 5] : List ℚ).headD 0 ∧
    interp1 lutScen5.r_grid [3, 4, 5] 5 = ([3, 4, 5] : List ℚ).getLastD 0 := by
  have h := size_from_lut_bilinear lutScen5 (1/200) 1 7 7 (by norm_num [lutScen5])
    (by simp [lutScen5]) (by norm_num [lutScen5, List.chain'_cons])
    (by norm_num [lutScen5, List.chain'_cons]) (by norm_num)
  refine ⟨⟨by norm_num [lutScen5], by simp [lutScen5],
    by norm_num [lutScen5, List.chain'_cons], by norm_num [lutScen5, List.chain'_cons],
    by norm_num⟩,
    by simpa using h.1, h.2.1, h.2.2.1 0 ?_, h.2.2.2.1 1 ?_ ?_,
    h.2.2.2.2.1 [3, 4, 5] 0 ?_, h.2.2.2.2.2 [3, 4, 5] 5 ?_ ?_⟩
  · norm_num [lutScen5]
  · norm_num [lutScen5]
  · norm_num [lutScen5]
  · norm_num [lutScen5]
  · norm_num [lutScen5]
  · norm_num [lutScen5]

/-! ## Claim C9 — safety of the sizing-oracle lookup

Reduction lemmas for the exception-aware model, and its agreement with
the total model on valid grids. -/

lemma bind_ok_eq {α β : Type} (a : α) (f : α → Except String β) :
    (Except.ok a : Except String α).bind f = f a :=
  rfl

lemma bind_error_eq {α β : Type} (e : String) (f : α → Except String β) :
    (Except.error e : Except String α).bind f = .error e :=
  rfl

lemma getD_mem_of_lt {α : Type} {l : List α} {n : ℕ} (h : n < l.length) (d : α) :
    l.getD n d ∈ l := by
  rw [List.getD_eq_getElem?_getD, List.getElem?_eq_getElem h, Option.getD_some]
  exact List.getElem_mem h

lemma pyGet_in_range {α : Type} {l : List α} {i : ℤ} (h0 : 0 ≤ i)
    (h1 : i < (l.length : ℤ)) (d : α) :
    pyGet l i d = .ok (l.getD i.toNat d) := by
  simp only [pyGet, if_neg (by omega : ¬ i < 0)]
  rw [if_pos ⟨h0, by omega⟩]

lemma pyGet_zero {α : Type} {l : List α} (h : l ≠ []) (d : α) :
    pyGet l 0 d = .ok (l.headD d) := by
  have hl : 0 < l.length := List.length_pos.mpr h
  rw [pyGet_in_range (by omega) (by omega) d, Int.toNat_zero, getD_zero_eq_headD h]

lemma pyGet_neg_one {α : Type} {l : List α} (h : l ≠ []) (d : α) :
    pyGet l (-1) d = .ok (l.getLastD d) := by
  have hl : 0 < l.length := List.length_pos.mpr h
  simp only [pyGet, if_pos (by omega : (-1 : ℤ) < 0)]
  rw [if_pos ⟨by omega, by omega⟩,
    (by omega : ((-1 : ℤ) + l.length).toNat = l.length - 1), ← getLastD_eq_getD_last]

lemma pyGet_nil {α : Type} (i : ℤ) (d : α) :
    pyGet ([] : List α) i d = .error "IndexError" := by
  rcases lt_or_ge i 0 with hi | hi
  · simp only [pyGet, List.length_nil, if_pos hi]
    rw [if_neg (by omega)]
  · simp only [pyGet, List.length_nil, if_neg (by omega : ¬ i < 0)]
    rw [if_neg (by omega)]

lemma interp1E_ok (x_grid y_grid : List ℚ) (x : ℚ) (hx : x_grid ≠ [])
    (hylen : y_grid.length = x_grid.length) :
    interp1E x_grid y_grid x = .ok (interp1 x_grid y_grid x) := by
  have hy : y_grid ≠ [] := by
    intro h0
    rw [h0] at hylen
    exact hx (List.length_eq_zero.mp hylen.symm)
  simp only [interp1E, pyGet_zero hx (0 : ℚ), bind_ok_eq]
  by_cases hc1 : x ≤ x_grid.headD 0
  · rw [if_pos hc1, interp1_low _ _ _ hc1]
    exact pyGet_zero hy 0
  · rw [if_neg hc1]
    simp only [pyGet_neg_one hx (0 : ℚ), bind_ok_eq]
    by_cases hc2 : x_grid.getLastD 0 ≤ x
    · rw [if_pos hc2, interp1_high _ _ _ hc1 hc2]
      exact pyGet_neg_one hy 0
    · rw [if_neg hc2]
      have hb1 : 1 ≤ bisectRight x_grid x :=
        bisectRight_pos hx (le_of_lt (not_le.mp hc1))
      have hb2 : bisectRight x_grid x < x_grid.length :=
        bisectRight_lt hx (not_le.mp hc2)
      have e1 : pyGet x_grid ((bisectRight x_grid x : ℤ) - 1) 0 =
          .ok (x_grid.getD (bisectRight x_grid x - 1) 0) := by
        rw [pyGet_in_range (by omega) (by omega) 0,
          (by omega : ((bisectRight x_grid x : ℤ) - 1).toNat = bisectRight x_grid x - 1)]
      have e2 : pyGet x_grid ((bisectRight x_grid x : ℤ) - 1 + 1) 0 =
          .ok (x_grid.getD (bisectRight x_grid x - 1 + 1) 0) := by
        rw [pyGet_in_range (by omega) (by omega) 0,
          (by omega :
            ((bisectRight x_grid x : ℤ) - 1 + 1).toNat = bisectRight x_grid x - 1 + 1)]
      have e3 : pyGet y_grid ((bisectRight x_grid x : ℤ) - 1) 0 =
          .ok (y_grid.getD (bisectRight x_grid x - 1) 0) := by
        rw [pyGet_in_range (by omega) (by omega) 0,
          (by omega : ((bisectRight x_grid x : ℤ) - 1).toNat = bisectRight x_grid x - 1)]
      have e4 : pyGet y_grid ((bisectRight x_grid x : ℤ) - 1 + 1) 0 =
          .ok (y_grid.getD (bisectRight x_grid x - 1 + 1) 0) := by
        rw [pyGet_in_range (by omega) (by omega) 0,
          (by omega :
            ((bisectRight x_grid x : ℤ) - 1 + 1).toNat = bisectRight x_grid x - 1 + 1)]
      simp only [e1, e2, e3, e4, bind_ok_eq]
      rw [interp1_mid _ _ _ hc1 hc2]

lemma interp2E_ok (s_grid r_grid : List ℚ) (G : List (List ℚ)) (s r : ℚ)
    (hs : s_grid ≠ []) (hr : r_grid ≠ []) (hlen : G.length = s_grid.length)
    (hrows : ∀ row ∈ G, row.length = r_grid.length) :
    interp2E s_grid r_grid G s r = .ok (interp2 s_grid r_grid G s r) := by
  have hG : G ≠ [] := by
    intro h0
    rw [h0] at hlen
    exact hs (List.length_eq_zero.mp hlen.symm)
  have hlpos : 0 < s_grid.length := List.length_pos.mpr hs
  simp only [interp2E, pyGet_zero hs (0 : ℚ), bind_ok_eq]
  by_cases hc1 : s ≤ s_grid.headD 0
  · rw [if_pos hc1]
    simp only [bind_ok_eq, pyGet_zero hG ([] : List ℚ),
      interp1E_ok r_grid (G.headD []) r hr (hrows _ (headD_mem hG [])),
      interp2_low _ _ _ _ _ hG hc1, zero_mul, add_zero]
  · rw [if_neg hc1]
    simp only [pyGet_neg_one hs (0 : ℚ), bind_ok_eq]
    by_cases hc2 : s_grid.getLastD 0 ≤ s
    · rw [if_pos hc2]
      have eG : pyGet G ((s_grid.length : ℤ) - 1) [] = .ok (G.getLastD []) := by
        rw [pyGet_in_range (by omega) (by omega) [],
          (by omega : ((s_grid.length : ℤ) - 1).toNat = s_grid.length - 1),
          ← hlen, ← getLastD_eq_getD_last]
      simp only [bind_ok_eq, eG,
        interp1E_ok r_grid (G.getLastD []) r hr (hrows _ (getLastD_mem hG [])),
        interp2_high _ _ _ _ _ hlen hc1 hc2, zero_mul, add_zero]
    · rw [if_neg hc2]
      have hb1 : 1 ≤ bisectRight s_grid s :=
        bisectRight_pos hs (le_of_lt (not_le.mp hc1))
      have hb2 : bisectRight s_grid s < s_grid.length :=
        bisectRight_lt hs (not_le.mp hc2)
      have e1 : pyGet s_grid ((bisectRight s_grid s : ℤ) - 1) 0 =
          .ok (s_grid.getD (bisectRight s_grid s - 1) 0) := by
        rw [pyGet_in_range (by omega) (by omega) 0,
          (by omega : ((bisectRight s_grid s : ℤ) - 1).toNat = bisectRight s_grid s - 1)]
      have e2 : pyGet s_grid ((bisectRight s_grid s : ℤ) - 1 + 1) 0 =
          .ok (s_grid.getD (bisectRight s_grid s - 1 + 1) 0) := by
        rw [pyGet_in_range (by omega) (by omega) 0,
          (by omega :
            ((bisectRight s_grid s : ℤ) - 1 + 1).toNat = bisectRight s_grid s - 1 + 1)]
      have eR0 : pyGet G ((bisectRight s_grid s : ℤ) - 1) [] =
          .ok (G.getD (bisectRight s_grid s - 1) []) := by
        rw [pyGet_in_range (by omega) (by omega) [],
          (by omega : ((bisectRight s_grid s : ℤ) - 1).toNat = bisectRight s_grid s - 1)]
      have eR1 : pyGet G ((bisectRight s_grid s : ℤ) - 1 + 1) [] =
          .ok (G.getD (bisectRight s_grid s - 1 + 1) []) := by
        rw [pyGet_in_range (by omega) (by omega) [],
          (by omega :
            ((bisectRight s_grid s : ℤ) - 1 + 1).toNat = bisectRight s_grid s - 1 + 1)]
      have hm0 : G.getD (bisectRight s_grid s - 1) [] ∈ G :=
        getD_mem_of_lt (by omega) []
      have hm1 : G.getD (bisectRight s_grid s - 1 + 1) [] ∈ G :=
        getD_mem_of_lt (by omega) []
      simp only [e1, e2, bind_ok_eq, eR0, eR1,
        interp1E_ok r_grid _ r hr (hrows _ hm0), interp1E_ok r_grid _ r hr (hrows _ hm1)]
      rw [interp2_unfold, interp2idx_mid _ _ hc1 hc2]

/-- C9 counterexample: on the empty grid, with both base reserves
positive, the lookup raises `IndexError` at `s_grid[0]` instead of
returning a value — so "for every grid and all real inputs, size_from_lut
returns a value ≥ 0" fails: the spec's grid invariants (strictly
increasing, matching lengths) are vacuously true of empty lists and do
not exclude this input. -/
theorem size_from_lutE_cex :
    size_from_lutE { s_grid := [], r_grid := [], g := [] } 0 1 1 =
      .error "IndexError" := by
  rw [size_from_lutE, if_neg (by norm_num : ¬ min (1 : ℚ) 1 ≤ 0)]
  simp only [interp2E, pyGet_nil, bind_error_eq]

/-- C9 amended: `size_from_lut` never returns a negative value and never
divides by zero — when `min(b1, b2) ≤ 0` it returns exactly 0 before any
grid access (for every grid, well-formed or not), every value it does
return is ≥ 0, and the ratio `b2 / b1` is formed only under the guard
`b1 > 0`; on valid grids (non-empty `s_grid` and `r_grid`, row lengths
matching) it always returns, and agrees with the total model
`size_from_lut`, whose value is ≥ 0.  On an empty grid with a positive
scale the code raises `IndexError` instead of returning. -/
theorem size_from_lutE_safety (lut : Lut) (s b1 b2 : ℚ) :
    (min b1 b2 ≤ 0 → size_from_lutE lut s b1 b2 = .ok 0) ∧
    (∀ v : ℚ, size_from_lutE lut s b1 b2 = .ok v → 0 ≤ v) ∧
    (lut.s_grid ≠ [] → lut.r_grid ≠ [] → lut.g.length = lut.s_grid.length →
      (∀ row ∈ lut.g, row.length = lut.r_grid.length) →
      size_from_lutE lut s b1 b2 = .ok (size_from_lut lut s b1 b2) ∧
        0 ≤ size_from_lut lut s b1 b2) := by
  refine ⟨?_, ?_, ?_⟩
  · intro hL
    rw [size_from_lutE, if_pos hL]
  · intro v hv
    by_cases hL : min b1 b2 ≤ 0
    · rw [size_from_lutE, if_pos hL] at hv
      rw [← Except.ok.inj hv]
    · rw [size_from_lutE, if_neg hL] at hv
      cases hi : interp2E lut.s_grid lut.r_grid lut.g s
          (if 0 < b1 then b2 / b1 else 0) with
      | error e =>
        rw [hi, bind_error_eq] at hv
        exact Except.noConfusion hv
      | ok g =>
        rw [hi, bind_ok_eq] at hv
        rw [← Except.ok.inj hv]
        exact mul_nonneg (le_of_lt (not_le.mp hL)) (le_max_left 0 _)
  · intro hs hr hlen hrows
    constructor
    · by_cases hL : min b1 b2 ≤ 0
      · rw [size_from_lutE, if_pos hL]
        simp only [size_from_lut, if_pos hL]
      · rw [size_from_lutE, if_neg hL,
          interp2E_ok _ _ _ _ _ hs hr hlen hrows, bind_ok_eq]
        simp only [size_from_lut, if_neg hL]
    · by_cases hL : min b1 b2 ≤ 0
      · simp [size_from_lut, hL]
      · have hb1 : 0 < b1 := (lt_min_iff.mp (not_le.mp hL)).1
        simp only [size_from_lut, if_neg hL, if_pos hb1]
        exact mul_nonneg (le_of_lt (not_le.mp hL)) (le_max_left 0 _)

/-- C9 witness: the short-circuit applied at `b2 = -1` (scale ≤ 0) and the
valid-grid agreement applied on the scenario-5 grid with positive
reserves. -/
theorem size_from_lutE_safety_witness :
    (min (1 : ℚ) (-1) ≤ 0 ∧ size_from_lutE lutScen5 0 1 (-1) = .ok 0) ∧
    (lutScen5.s_grid ≠ [] ∧ lutScen5.r_grid ≠ [] ∧
      lutScen5.g.length = lutScen5.s_grid.length ∧
      (∀ row ∈ lutScen5.g, row.length = lutScen5.r_grid.length) ∧
      (size_from_lutE lutScen5 (1 / 200) 7 7 =
          .ok (size_from_lut lutScen5 (1 / 200) 7 7) ∧
        0 ≤ size_from_lut lutScen5 (1 / 200) 7 7)) :=
  ⟨⟨by norm_num, (size_from_lutE_safety lutScen5 0 1 (-1)).1 (by norm_num)⟩,
    by simp [lutScen5], by simp [lutScen5], by norm_num [lutScen5],
    by decide,
    (size_from_lutE_safety lutScen5 (1 / 200) 7 7).2.2 (by simp [lutScen5])
      (by simp [lutScen5]) (by norm_num [lutScen5]) (by decide)⟩

end ArbBot
